import Mathlib

/-!
Verification of the bg-data-scrapers fetch-dedupe-persist pipeline
(`scrapers/scrapers/base.py`, `scrapers/models.py`) via a shallow
embedding in Lean.  Bytes are modelled as `Nat` (values 0..255),
timestamps as `Int`, delays as `ℚ`, and the Django `ScrapedFile` table
as a list of records.  Network and storage effects are supplied by
explicit oracles so that every function is pure and executable.
-/

namespace BgScrapers

/-! ### SHA-256 over byte lists

`BaseScraper._calculate_hash` / `calculate_file_hash` / the download
loop all use `hashlib.sha256`.  We implement the full SHA-256
algorithm over `List Nat` byte streams (words are `Nat` reduced
mod 2^32). -/

def w32 (n : Nat) : Nat := n % 4294967296

def rotr32 (n x : Nat) : Nat := w32 ((x >>> n) ||| (x <<< (32 - n)))

def sigBig0 (x : Nat) : Nat := rotr32 2 x ^^^ rotr32 13 x ^^^ rotr32 22 x

def sigBig1 (x : Nat) : Nat := rotr32 6 x ^^^ rotr32 11 x ^^^ rotr32 25 x

def sigSmall0 (x : Nat) : Nat := rotr32 7 x ^^^ rotr32 18 x ^^^ (x >>> 3)

def sigSmall1 (x : Nat) : Nat := rotr32 17 x ^^^ rotr32 19 x ^^^ (x >>> 10)

def chF (x y z : Nat) : Nat := (x &&& y) ^^^ ((x ^^^ 4294967295) &&& z)

def majF (x y z : Nat) : Nat := (x &&& y) ^^^ (x &&& z) ^^^ (y &&& z)

def K256 : List Nat :=
  [1116352408, 1899447441, 3049323471, 3921009573, 961987163,
   1508970993, 2453635748, 2870763221, 3624381080, 310598401,
   607225278, 1426881987, 1925078388, 2162078206, 2614888103,
   3248222580, 3835390401, 4022224774, 264347078, 604807628,
   770255983, 1249150122, 1555081692, 1996064986, 2554220882,
   2821834349, 2952996808, 3210313671, 3336571891, 3584528711,
   113926993, 338241895, 666307205, 773529912, 1294757372,
   1396182291, 1695183700, 1986661051, 2177026350, 2456956037,
   2730485921, 2820302411, 3259730800, 3345764771, 3516065817,
   3600352804, 4094571909, 275423344, 430227734, 506948616,
   659060556, 883997877, 958139571, 1322822218, 1537002063,
   1747873779, 1955562222, 2024104815, 2227730452, 2361852424,
   2428436474, 2756734187, 3204031479, 3329325298]

def H256 : List Nat :=
  [1779033703, 3144134277, 1013904242, 2773480762,
   1359893119, 2600822924, 528734635, 1541459225]

/-- One SHA-256 compression round on the 8-word working state. -/
def roundFn (s : Nat × Nat × Nat × Nat × Nat × Nat × Nat × Nat) (kw : Nat × Nat) :
    Nat × Nat × Nat × Nat × Nat × Nat × Nat × Nat :=
  match s, kw with
  | (a, b, c, d, e, f, g, h), (k, w) =>
    let t1 := w32 (h + sigBig1 e + chF e f g + k + w)
    let t2 := w32 (sigBig0 a + majF a b c)
    (w32 (t1 + t2), a, b, c, w32 (d + t1), e, f, g)

/-- Extend a 16-word block to the 64-word message schedule. -/
def scheduleExt : Nat → List Nat → List Nat
  | 0, ws => ws
  | k + 1, ws =>
    let m := ws.length
    scheduleExt k (ws ++
      [w32 (sigSmall1 (ws.getD (m - 2) 0) + ws.getD (m - 7) 0 +
            sigSmall0 (ws.getD (m - 15) 0) + ws.getD (m - 16) 0)])

def schedule (block : List Nat) : List Nat := scheduleExt 48 block

/-- Compress one scheduled block into the chaining state (8 words). -/
def compress (hs ws : List Nat) : List Nat :=
  match hs with
  | [a0, b0, c0, d0, e0, f0, g0, h0] =>
    match (K256.zip ws).foldl roundFn (a0, b0, c0, d0, e0, f0, g0, h0) with
    | (a, b, c, d, e, f, g, h) =>
      [w32 (a0 + a), w32 (b0 + b), w32 (c0 + c), w32 (d0 + d),
       w32 (e0 + e), w32 (f0 + f), w32 (g0 + g), w32 (h0 + h)]
  | _ => hs

/-- Split a list into consecutive chunks of `n` elements (last chunk may
be shorter); mirrors both the 4096-byte file-read loop and the
8192-byte `iter_content` stream. -/
def chunksOf (n : Nat) (l : List α) : List (List α) :=
  if h : l.isEmpty ∨ n = 0 then [] else l.take n :: chunksOf n (l.drop n)
termination_by l.length
decreasing_by
  simp only [not_or, List.isEmpty_iff] at h
  simp only [List.length_drop]
  rcases l with _ | ⟨x, xs⟩
  · exact absurd rfl h.1
  · simp only [List.length_cons]
    omega

/-- Big-endian byte expansion: `k` bytes of `n`. -/
def toBytesBE : Nat → Nat → List Nat
  | 0, _ => []
  | k + 1, n => toBytesBE k (n / 256) ++ [n % 256]

def toWordBE (bs : List Nat) : Nat := bs.foldl (fun a b => a * 256 + b) 0

/-- SHA-256 padding: 0x80, zeros to 56 mod 64, 8-byte big-endian bit length. -/
def padMessage (msg : List Nat) : List Nat :=
  msg ++ 128 :: (List.replicate ((64 + 55 - msg.length % 64) % 64) 0 ++
    toBytesBE 8 (msg.length * 8))

def sha256words (msg : List Nat) : List Nat :=
  (chunksOf 64 (padMessage msg)).foldl
    (fun hs blk => compress hs (schedule ((chunksOf 4 blk).map toWordBE))) H256

def hexDigit (n : Nat) : Char := if n < 10 then Char.ofNat (48 + n) else Char.ofNat (87 + n)

def wordHex (w : Nat) : String :=
  String.mk ((List.range 8).map (fun i => hexDigit ((w >>> ((7 - i) * 4)) &&& 15)))

/-- Hex digest of a byte sequence, as `hashlib.sha256(b).hexdigest()`. -/
def sha256hex (msg : List Nat) : String := String.join ((sha256words msg).map wordHex)

/-- Model of a `hashlib.sha256()` object.  hashlib's contract is that
`m.update(a); m.update(b)` is equivalent to `m.update(a + b)` and that
`hexdigest()` returns the digest of the concatenation of everything fed
so far, so the context carries the absorbed byte stream and `hexdigest`
runs the full SHA-256 computation on it. -/
structure Sha256Ctx where
  data : List Nat
deriving Repr, DecidableEq

def Sha256Ctx.init : Sha256Ctx := ⟨[]⟩

def Sha256Ctx.update (c : Sha256Ctx) (b : List Nat) : Sha256Ctx := ⟨c.data ++ b⟩

def Sha256Ctx.hexdigest (c : Sha256Ctx) : String := sha256hex c.data

/-- Model of `BaseScraper._calculate_hash`: one-shot digest of a byte buffer. -/
def calculate_hash (content : List Nat) : String := sha256hex content

/-- Model of `BaseScraper.calculate_file_hash`: incremental digest of a file read
in 4096-byte blocks (the file's content is passed as a byte list; the
filesystem read loop `iter(lambda: f.read(4096), b"")` is exactly
`chunksOf 4096`). -/
def calculate_file_hash (content : List Nat) : String :=
  ((chunksOf 4096 content).foldl Sha256Ctx.update Sha256Ctx.init).hexdigest

/-- The accumulation loop of `download_file` (lines 176-184): walks the
streamed chunks, extending the content buffer, the running hash and the
byte count; empty chunks are skipped by `if chunk:`. -/
def processChunks : List (List Nat) → List Nat × Sha256Ctx × Nat → List Nat × Sha256Ctx × Nat
  | [], acc => acc
  | ch :: rest, acc =>
    if ch.isEmpty then processChunks rest acc
    else processChunks rest (acc.1 ++ ch, acc.2.1.update ch, acc.2.2 + ch.length)

/-! ### Data model

`ScrapedFile` (`scrapers/models.py`) and the per-run stats dict created
in `BaseScraper.__init__`. -/

/-- One row of the `ScrapedFile` Django model. -/
structure ScrapedFile where
  institution : String
  original_url : String
  file_path : String
  file_name : String
  file_size : Nat
  mime_type : String
  hash_value : String
  date_created : Int
  last_updated : Int
deriving Repr

/-- One element of `self.stats["errors"]`. -/
structure ErrorEntry where
  url : String
  error : String
  time : Int
deriving Repr, DecidableEq

/-- The `self.stats` dictionary.  `duration` is the key added by
`finalize` (absent, i.e. `none`, until then). -/
structure Stats where
  start_time : Int
  end_time : Option Int
  files_scraped : Nat
  files_failed : Nat
  total_size : Nat
  errors : List ErrorEntry
  duration : Option Int
deriving Repr

/-- The mutable state of a `BaseScraper` instance together with the
`ScrapedFile` table it reads and writes.  Configuration fields carry the
values resolved in `__init__` (defaults: delay 1.0 s, 3 retries). -/
structure ScraperState where
  institution : String
  scraped_files_dir : String
  request_delay : ℚ
  max_retries : Nat
  db : List ScrapedFile
  stats : Stats

/-- The `self.stats` dict as initialized in `BaseScraper.__init__`. -/
def initStats (now : Int) : Stats :=
  { start_time := now, end_time := none, files_scraped := 0, files_failed := 0,
    total_size := 0, errors := [], duration := none }

def initState (institution dir : String) (now : Int) (db : List ScrapedFile) : ScraperState :=
  { institution := institution, scraped_files_dir := dir, request_delay := 1,
    max_retries := 3, db := db, stats := initStats now }

/-! ### Retry/backoff transport (`BaseScraper._make_request`) -/

/-- Outcome of one `self.session.get` attempt, supplied by the network
oracle: either the request raises a `RequestException`, or a response
with a status code, streamed body chunks and text arrives. -/
inductive AttemptResult where
  | netErr (msg : String)
  | resp (status : Nat) (chunks : List (List Nat)) (text : String)

structure Response where
  status : Nat
  chunks : List (List Nat)
  text : String

/-- Model of `response.raise_for_status()`: an HTTP 4xx/5xx status raises
`HTTPError` (a `RequestException`); a network-level failure already is
one.  Note the code does NOT distinguish retryable from non-retryable
statuses: every `RequestException` is treated alike. -/
def attemptOutcome : AttemptResult → Except String Response
  | .netErr m => .error m
  | .resp s c t => if 400 ≤ s then .error ("HTTP " ++ toString s) else .ok ⟨s, c, t⟩

/-- Observable outcome of `_make_request`: the value returned or error
raised (`result = none` models the loop falling through with no attempt,
which happens only when `max_retries = 0` and makes Python return
`None`), the number of `session.get` calls made, and the sequence of
backoff sleeps (`request_delay * 2 ** attempt`) taken between attempts. -/
structure MROutcome where
  result : Option (Except String Response)
  attempts : Nat
  backoffs : List ℚ

/-- The `for attempt in range(self.max_retries)` loop of
`_make_request`, with `fuel = maxRetries - attempt` remaining
iterations. -/
def makeRequestLoop (fetch : Nat → AttemptResult) (maxRetries : Nat) (delay : ℚ)
    (attempt : Nat) : Nat → MROutcome
  | 0 => ⟨none, 0, []⟩
  | fuel + 1 =>
    match attemptOutcome (fetch attempt) with
    | .ok r => ⟨some (.ok r), 1, []⟩
    | .error e =>
      if attempt = maxRetries - 1 then ⟨some (.error e), 1, []⟩
      else
        let rest := makeRequestLoop fetch maxRetries delay (attempt + 1) fuel
        ⟨rest.result, rest.attempts + 1, delay * 2 ^ attempt :: rest.backoffs⟩

/-- Model of `BaseScraper._make_request(url)`: retry loop with exponential
backoff over the per-attempt network oracle `fetch`. -/
def makeRequest (fetch : Nat → AttemptResult) (maxRetries : Nat) (delay : ℚ) : MROutcome :=
  makeRequestLoop fetch maxRetries delay 0 maxRetries

/-! ### `download_file` and `fetch_page` -/

/-- Predicate selecting the `ScrapedFile` row for one
`(institution, original_url)` pair, as in the `.filter(...)` query. -/
def keyPred (inst url : String) (r : ScrapedFile) : Bool :=
  r.institution == inst && r.original_url == url

/-- Model of `ScrapedFile.objects.filter(institution=..., original_url=...).first()`. -/
def findRecord (db : List ScrapedFile) (inst url : String) : Option ScrapedFile :=
  db.find? (keyPred inst url)

/-- Django `existing_file.save()`: replace the (first) row matching the
key with its updated version; rows are keyed, so under the uniqueness
invariant this is the row found by the earlier query. -/
def replaceFirst (p : ScrapedFile → Bool) (new : ScrapedFile) : List ScrapedFile → List ScrapedFile
  | [] => []
  | r :: rs => if p r then new :: rs else r :: replaceFirst p new rs

/-- The extension of a file name: the suffix from the final dot,
mirroring `os.path.splitext(file_name)[1]` (splitext's special casing
of all-dots basenames is not distinguished; no claim exercises it). -/
def extOf (s : String) : String :=
  if s.toList.contains '.' then
    String.mk ('.' :: (s.toList.reverse.takeWhile (fun c => c != '.')).reverse)
  else ""

def mimeTable : List (String × String) :=
  [(".pdf", "application/pdf"),
   (".xls", "application/vnd.ms-excel"),
   (".xlsx", "application/vnd.openxmlformats-officedocument.spreadsheetml.sheet"),
   (".doc", "application/msword"),
   (".docx", "application/vnd.openxmlformats-officedocument.wordprocessingml.document"),
   (".csv", "text/csv"),
   (".txt", "text/plain"),
   (".html", "text/html"),
   (".xml", "application/xml"),
   (".json", "application/json"),
   (".zip", "application/zip"),
   (".rar", "application/x-rar-compressed")]

/-- Model of `BaseScraper._get_mime_type`. -/
def get_mime_type (file_name : String) : String :=
  (((mimeTable.find? (fun p => p.1 == (extOf file_name).toLower)).map Prod.snd)).getD
    "application/octet-stream"

/-- External effects of one `download_file` call: the HEAD probe result
(`none` = the HEAD request raised; `some etag?` = response whose headers
`.get("ETag")` gave `etag?`), the per-attempt network oracle for the
streamed GET, the storage collaborator `save`, and the current time. -/
structure DLEnv where
  headResult : Option (Option String)
  fetch : Nat → AttemptResult
  storageSave : String → List Nat → Except String String
  now : Int

/-- Observable outcome of `download_file`: Python return value (`none` =
the `except` path returned `None`), resulting scraper state,
whether the streamed GET (`_make_request(url, stream=True)`) was issued,
and the arguments of the `storage.save` call if one was made. -/
structure DLOutcome where
  ret : Option String
  state : ScraperState
  bodyFetched : Bool
  savedBytes : Option (String × List Nat)

/-- The ETag fast path (lines 149-160): skip only when the HEAD request
succeeded and returned a truthy ETag equal to the stored digest. -/
def etagMatches (headResult : Option (Option String)) (ef : ScrapedFile) : Bool :=
  match headResult with
  | some (some etag) => !(etag == "") && etag == ef.hash_value
  | _ => false

/-- The `except` clause of `download_file` (lines 226-234). -/
def recordFailure (st : ScraperState) (url e : String) (now : Int) : ScraperState :=
  { st with stats :=
    { st.stats with
        files_failed := st.stats.files_failed + 1,
        errors := st.stats.errors ++ [⟨url, e, now⟩] } }

/-- Lines 194-224: save the bytes, then create or update the
`ScrapedFile` row, then bump the success counters.  A failing
`storage.save` raises into the `except` clause before any record is
touched. -/
def commitDownload (env : DLEnv) (st : ScraperState) (url fname : String) (overwrite : Bool)
    (existing : Option ScrapedFile) (storage_path : String) (content : List Nat)
    (hash_value : String) (total_size : Nat) : DLOutcome :=
  match env.storageSave storage_path content with
  | .error e => ⟨none, recordFailure st url e env.now, true, some (storage_path, content)⟩
  | .ok file_path =>
    let mime_type := get_mime_type fname
    let db2 :=
      match existing with
      | some ef =>
        if overwrite || !(ef.hash_value == hash_value) then
          replaceFirst (keyPred st.institution url)
            { ef with file_path := file_path, file_size := total_size,
                      mime_type := mime_type, hash_value := hash_value,
                      last_updated := env.now } st.db
        else st.db
      | none =>
        st.db ++ [{ institution := st.institution, original_url := url,
                    file_path := file_path, file_name := fname,
                    file_size := total_size, mime_type := mime_type,
                    hash_value := hash_value, date_created := env.now,
                    last_updated := env.now }]
    ⟨some file_path,
     { st with db := db2,
               stats := { st.stats with
                   files_scraped := st.stats.files_scraped + 1,
                   total_size := st.stats.total_size + total_size } },
     true, some (storage_path, content)⟩

/-- The `try` block of `download_file` (lines 162-224): streamed GET,
chunked accumulation and hashing, content-hash dedupe check, then
commit.  `_make_request` returning `None` (possible only when
`max_retries = 0`) makes `response.iter_content` raise
`AttributeError`, which the bare `except Exception` also catches. -/
def downloadBody (env : DLEnv) (st : ScraperState) (url fname : String) (overwrite : Bool)
    (existing : Option ScrapedFile) : DLOutcome :=
  match (makeRequest env.fetch st.max_retries st.request_delay).result with
  | none =>
    ⟨none, recordFailure st url "NoneType object has no attribute iter_content" env.now,
     true, none⟩
  | some (.error e) => ⟨none, recordFailure st url e env.now, true, none⟩
  | some (.ok resp) =>
    let storage_path := st.scraped_files_dir ++ "/" ++ st.institution ++ "/" ++ fname
    let acc := processChunks resp.chunks ([], Sha256Ctx.init, 0)
    let content := acc.1
    let hash_value := acc.2.1.hexdigest
    let total_size := acc.2.2
    match existing with
    | some ef =>
      if ef.hash_value == hash_value && !overwrite then
        ⟨some ef.file_path, st, true, none⟩
      else
        commitDownload env st url fname overwrite existing storage_path content hash_value
          total_size
    | none =>
      commitDownload env st url fname overwrite existing storage_path content hash_value
        total_size

/-- Model of `BaseScraper.download_file(url, file_name, overwrite)`.  The
`file_name=None` URL-basename fallback (lines 137-141) is not modelled:
every claim supplies an explicit name. -/
def download_file (env : DLEnv) (st : ScraperState) (url fname : String)
    (overwrite : Bool) : DLOutcome :=
  let existing := findRecord st.db st.institution url
  match existing with
  | some ef =>
    if !overwrite && etagMatches env.headResult ef then
      ⟨some ef.file_path, st, false, none⟩
    else
      downloadBody env st url fname overwrite existing
  | none => downloadBody env st url fname overwrite existing

/-- External effects of one `fetch_page` call. -/
structure PageEnv where
  fetch : Nat → AttemptResult
  now : Int

/-- Observable outcome of `fetch_page`: the parsed page (modelled by the
response text) or `none`, the resulting state, and `crashed = true` for
the un-caught `AttributeError` arising when `_make_request` returns
`None` (only possible when `max_retries = 0`; `fetch_page` catches only
`RequestException`). -/
structure FPOutcome where
  soup : Option String
  state : ScraperState
  crashed : Bool

/-- Model of `BaseScraper.fetch_page` (lines 66-81).  The `params` argument is
accepted by the Python signature but never forwarded, so it is omitted. -/
def fetch_page (env : PageEnv) (st : ScraperState) (url : String) : FPOutcome :=
  match (makeRequest env.fetch st.max_retries st.request_delay).result with
  | some (.ok resp) => ⟨some resp.text, st, false⟩
  | some (.error e) =>
    ⟨none,
     { st with stats := { st.stats with errors := st.stats.errors ++ [⟨url, e, env.now⟩] } },
     false⟩
  | none => ⟨none, st, true⟩

/-- Model of `BaseScraper.finalize` (lines 240-248): stamps `end_time`,
derives `duration`, and returns the stats dict. -/
def finalize (now : Int) (st : ScraperState) : ScraperState × Stats :=
  let stats2 := { st.stats with
      end_time := some now,
      duration := some (now - st.stats.start_time) }
  ({ st with stats := stats2 }, stats2)

/-! ### Pipeline operation sequences -/

/-- One pipeline operation: a page fetch or a file download, each with
its own external environment. -/
inductive Op where
  | page (env : PageEnv) (url : String)
  | dl (env : DLEnv) (url fname : String) (overwrite : Bool)

/-- Run one operation; also report (#terminal download failures,
#failed page fetches) contributed by it. -/
def stepOp (st : ScraperState) : Op → ScraperState × Nat × Nat
  | .page env url =>
    let r := fetch_page env st url
    (r.state, 0, if r.soup.isNone && !r.crashed then 1 else 0)
  | .dl env url fname ow =>
    let r := download_file env st url fname ow
    (r.state, if r.ret.isNone then 1 else 0, 0)

/-- Run a sequence of operations, accumulating the failure counts. -/
def runOps : List Op → ScraperState → ScraperState × Nat × Nat
  | [], st => (st, 0, 0)
  | op :: ops, st =>
    let s := stepOp st op
    let r := runOps ops s.1
    (r.1, s.2.1 + r.2.1, s.2.2 + r.2.2)

/-- A sequence of `download_file` calls (env, url, file name, overwrite). -/
def runDownloads : List (DLEnv × String × String × Bool) → ScraperState → ScraperState
  | [], st => st
  | c :: cs, st => runDownloads cs (download_file c.1 st c.2.1 c.2.2.1 c.2.2.2).state

/-! ### Uniqueness bookkeeping -/

/-- Number of rows for one `(institution, original_url)` key. -/
def countKey (db : List ScrapedFile) (inst url : String) : Nat :=
  (db.filter (keyPred inst url)).length

/-- The `unique_together = ("institution", "original_url")` invariant of
`ScrapedFile.Meta`. -/
def UniqueDB (db : List ScrapedFile) : Prop :=
  ∀ inst url, countKey db inst url ≤ 1

/-! ### Hashing lemmas -/

theorem chunksOf_nil (n : Nat) : chunksOf n ([] : List α) = [] := by
  rw [chunksOf]
  simp

theorem chunksOf_eq (n : Nat) (l : List α) (hn : n ≠ 0) (hl : l ≠ []) :
    chunksOf n l = l.take n :: chunksOf n (l.drop n) := by
  rw [chunksOf]
  rw [dif_neg]
  simp [List.isEmpty_iff, hl, hn]

theorem join_chunksOf (n : Nat) (hn : 0 < n) (l : List α) : (chunksOf n l).flatten = l := by
  have main : ∀ len (l : List α), l.length = len → (chunksOf n l).flatten = l := by
    intro len
    induction len using Nat.strong_induction_on with
    | _ len ih =>
      intro l hlen
      rcases l with _ | ⟨x, xs⟩
      · simp [chunksOf_nil]
      · rw [chunksOf_eq n _ (by omega) (by simp), List.flatten_cons,
          ih ((x :: xs).drop n).length
            (by simp only [List.length_drop, List.length_cons] at *; omega) _ rfl,
          List.take_append_drop]
  exact main l.length l rfl

theorem foldl_update (chunks : List (List Nat)) :
    ∀ c : Sha256Ctx, chunks.foldl Sha256Ctx.update c = ⟨c.data ++ chunks.flatten⟩ := by
  induction chunks with
  | nil => intro c; simp
  | cons a rest ih =>
    intro c
    simp only [List.foldl_cons, ih, Sha256Ctx.update, List.flatten_cons, List.append_assoc]

theorem processChunks_spec (chunks : List (List Nat)) :
    ∀ (a : List Nat) (c : Sha256Ctx) (n : Nat),
      processChunks chunks (a, c, n) =
        (a ++ chunks.flatten, ⟨c.data ++ chunks.flatten⟩, n + chunks.flatten.length) := by
  induction chunks with
  | nil => intro a c n; simp [processChunks]
  | cons ch rest ih =>
    intro a c n
    rw [processChunks]
    by_cases hch : ch.isEmpty
    · simp only [List.isEmpty_iff] at hch
      subst hch
      simp [ih]
    · rw [if_neg (by simp [hch])]
      rw [ih]
      simp only [Sha256Ctx.update, List.flatten_cons, List.append_assoc, List.length_append,
        Prod.mk.injEq, Sha256Ctx.mk.injEq, true_and, and_true]
      omega

/-- Claim C8: for every byte sequence B and every partition of B into
consecutive chunks, feeding the chunks incrementally to the hasher (as
in `calculate_file_hash` with 4 KiB blocks or the `download_file`
streaming loop with its 8 KiB chunks) yields the same hex digest as
hashing B in one shot with `_calculate_hash`. -/
theorem C8_digest_chunk_invariance (B : List Nat) (chunks : List (List Nat))
    (hpart : chunks.flatten = B) :
    (chunks.foldl Sha256Ctx.update Sha256Ctx.init).hexdigest = calculate_hash B ∧
    (processChunks chunks ([], Sha256Ctx.init, 0)).2.1.hexdigest = calculate_hash B ∧
    calculate_file_hash B = calculate_hash B := by
  subst hpart
  refine ⟨?_, ?_, ?_⟩
  · rw [foldl_update]
    rfl
  · rw [processChunks_spec]
    rfl
  · rw [calculate_file_hash, foldl_update]
    show sha256hex ([] ++ (chunksOf 4096 chunks.flatten).flatten) = _
    rw [List.nil_append, join_chunksOf 4096 (by norm_num)]
    rfl

theorem C8_digest_chunk_invariance_witness :
    ([[1, 2], [3]] : List (List Nat)).flatten = [1, 2, 3] ∧
    (([[1, 2], [3]] : List (List Nat)).foldl Sha256Ctx.update Sha256Ctx.init).hexdigest =
      calculate_hash [1, 2, 3] :=
  ⟨by decide, (C8_digest_chunk_invariance [1, 2, 3] [[1, 2], [3]] (by decide)).1⟩

/-! ### Transport lemmas -/

theorem makeRequestLoop_allFail (fetch : Nat → AttemptResult) (maxRetries : Nat) (delay : ℚ) :
    ∀ fuel attempt, attempt + fuel = maxRetries → 1 ≤ fuel →
      (∀ i, attempt ≤ i → i < maxRetries → ∃ e, attemptOutcome (fetch i) = .error e) →
      ∃ e, attemptOutcome (fetch (maxRetries - 1)) = .error e ∧
        makeRequestLoop fetch maxRetries delay attempt fuel =
          ⟨some (.error e), fuel,
           (List.range (fuel - 1)).map (fun i => delay * 2 ^ (attempt + i))⟩ := by
  intro fuel
  induction fuel with
  | zero => intro attempt _ h1; omega
  | succ k ih =>
    intro attempt hsum _ hf
    obtain ⟨e, he⟩ := hf attempt (Nat.le_refl _) (by omega)
    by_cases hlast : attempt = maxRetries - 1
    · have hk : k = 0 := by omega
      subst hk
      refine ⟨e, by rwa [hlast] at he, ?_⟩
      rw [makeRequestLoop, he]
      simp [hlast]
    · have hk : 1 ≤ k := by omega
      obtain ⟨e2, he2, heq⟩ := ih (attempt + 1) (by omega) hk
        (fun i hi1 hi2 => hf i (by omega) hi2)
      refine ⟨e2, he2, ?_⟩
      rw [makeRequestLoop, he]
      simp only [if_neg hlast, heq]
      obtain ⟨m, hm⟩ : ∃ m, k = m + 1 := ⟨k - 1, by omega⟩
      subst hm
      have hlist : (List.range (m + 1)).map (fun i => delay * 2 ^ (attempt + i)) =
          delay * 2 ^ attempt :: (List.range m).map (fun i => delay * 2 ^ (attempt + 1 + i)) := by
        rw [List.range_succ_eq_map, List.map_cons, List.map_map, Nat.add_zero]
        congr 1
        apply List.map_congr_left
        intro i _
        simp only [Function.comp_apply, Nat.add_succ, Nat.succ_add]
      simp only [Nat.add_sub_cancel, hlist]

/-- Claim C2: for a URL whose fetch fails on every attempt, the
transport makes exactly `max_retries` attempts, sleeps
`request_delay * 2 ^ attempt` between attempt `attempt + 1` and attempt
`attempt + 2` for each attempt before the last, and after the final
attempt's failure propagates that attempt's error instead of retrying
further. -/
theorem C2_retry_bound (fetch : Nat → AttemptResult) (maxRetries : Nat) (delay : ℚ)
    (h1 : 1 ≤ maxRetries)
    (hf : ∀ i, i < maxRetries → ∃ e, attemptOutcome (fetch i) = .error e) :
    (makeRequest fetch maxRetries delay).attempts = maxRetries ∧
    (makeRequest fetch maxRetries delay).backoffs =
      (List.range (maxRetries - 1)).map (fun a => delay * 2 ^ a) ∧
    ∃ e, attemptOutcome (fetch (maxRetries - 1)) = .error e ∧
      (makeRequest fetch maxRetries delay).result = some (.error e) := by
  obtain ⟨e, he, heq⟩ := makeRequestLoop_allFail fetch maxRetries delay maxRetries 0
    (by omega) h1 (fun i _ hi => hf i hi)
  rw [makeRequest, heq]
  refine ⟨rfl, ?_, e, he, rfl⟩
  simp

theorem C2_retry_bound_witness :
    (1 ≤ 3 ∧
      (makeRequest (fun _ => .netErr "connection reset") 3 1).attempts = 3) ∧
    (makeRequest (fun _ => .netErr "connection reset") 3 1).backoffs =
      (List.range 2).map (fun a => (1 : ℚ) * 2 ^ a) :=
  ⟨⟨by decide,
    (C2_retry_bound (fun _ => .netErr "connection reset") 3 1 (by decide)
      (fun i _ => ⟨"connection reset", rfl⟩)).1⟩,
   (C2_retry_bound (fun _ => .netErr "connection reset") 3 1 (by decide)
      (fun i _ => ⟨"connection reset", rfl⟩)).2.1⟩

/-- Claim C6 counterexample: a permanent HTTP 404 response does NOT
fail after a single attempt with no backoff sleep — `raise_for_status`
raises `HTTPError`, a `RequestException`, which the retry loop treats
like any transient failure, so all three attempts are consumed with
backoff sleeps in between. -/
theorem C6_counterexample :
    ¬ ((makeRequest (fun _ => .resp 404 [] "") 3 1).attempts = 1 ∧
       (makeRequest (fun _ => .resp 404 [] "") 3 1).backoffs = []) := by
  decide

/-- Claim C6 (amended): a fetch whose every attempt yields a non-2xx
HTTP status (e.g. 404) is retried like any transient failure: it
consumes exactly `max_retries` attempts with exponential backoff sleeps
between them, and then the `HTTPError` for that status propagates. -/
theorem C6_http_error_retried (status : Nat) (chunks : List (List Nat)) (text : String)
    (maxRetries : Nat) (delay : ℚ) (h1 : 1 ≤ maxRetries) (hs : 400 ≤ status) :
    (makeRequest (fun _ => .resp status chunks text) maxRetries delay).attempts = maxRetries ∧
    (makeRequest (fun _ => .resp status chunks text) maxRetries delay).backoffs =
      (List.range (maxRetries - 1)).map (fun a => delay * 2 ^ a) ∧
    (makeRequest (fun _ => .resp status chunks text) maxRetries delay).result =
      some (.error ("HTTP " ++ toString status)) := by
  have hout : attemptOutcome (.resp status chunks text) = .error ("HTTP " ++ toString status) := by
    rw [attemptOutcome, if_pos hs]
  obtain ⟨e, he, heq⟩ := makeRequestLoop_allFail (fun _ => .resp status chunks text)
    maxRetries delay maxRetries 0 (by omega) h1 (fun i _ _ => ⟨"HTTP " ++ toString status, hout⟩)
  rw [hout] at he
  cases he
  rw [makeRequest, heq]
  refine ⟨rfl, ?_, rfl⟩
  simp

theorem C6_http_error_retried_witness :
    ((1 ≤ 3 ∧ 400 ≤ 404) ∧
      (makeRequest (fun _ => .resp 404 [] "") 3 1).attempts = 3) ∧
    (makeRequest (fun _ => .resp 404 [] "") 3 1).result = some (.error "HTTP 404") :=
  ⟨⟨⟨by decide, by decide⟩,
    (C6_http_error_retried 404 [] "" 3 1 (by decide) (by decide)).1⟩,
   (C6_http_error_retried 404 [] "" 3 1 (by decide) (by decide)).2.2⟩

/-! ### Outcome characterization of `download_file`

One exhaustive disjunction over the control-flow paths of
`download_file`; the per-claim theorems below all consume it. -/

theorem download_file_outcomes (env : DLEnv) (st : ScraperState) (url fname : String)
    (ow : Bool) :
    (∃ e, download_file env st url fname ow =
        ⟨none, recordFailure st url e env.now, true, none⟩) ∨
    (∃ ef, findRecord st.db st.institution url = some ef ∧
        (download_file env st url fname ow = ⟨some ef.file_path, st, false, none⟩ ∨
         download_file env st url fname ow = ⟨some ef.file_path, st, true, none⟩)) ∨
    (∃ sp content e, env.storageSave sp content = Except.error e ∧
        download_file env st url fname ow =
          ⟨none, recordFailure st url e env.now, true, some (sp, content)⟩) ∨
    (∃ ef sp content fp hv ts db2,
        findRecord st.db st.institution url = some ef ∧
        env.storageSave sp content = Except.ok fp ∧
        (db2 = st.db ∨ db2 = replaceFirst (keyPred st.institution url)
            { ef with file_path := fp, file_size := ts, mime_type := get_mime_type fname,
                      hash_value := hv, last_updated := env.now } st.db) ∧
        download_file env st url fname ow =
          ⟨some fp,
           { st with db := db2,
                     stats := { st.stats with
                                files_scraped := st.stats.files_scraped + 1,
                                total_size := st.stats.total_size + ts } },
           true, some (sp, content)⟩) ∨
    (findRecord st.db st.institution url = none ∧
      ∃ sp content fp hv ts,
        env.storageSave sp content = Except.ok fp ∧
        download_file env st url fname ow =
          ⟨some fp,
           { st with
             db := st.db ++ [{ institution := st.institution, original_url := url,
                               file_path := fp, file_name := fname, file_size := ts,
                               mime_type := get_mime_type fname, hash_value := hv,
                               date_created := env.now, last_updated := env.now }],
             stats := { st.stats with
                        files_scraped := st.stats.files_scraped + 1,
                        total_size := st.stats.total_size + ts } },
           true, some (sp, content)⟩) := by
  cases hfind : findRecord st.db st.institution url with
  | none =>
    simp only [download_file, hfind, downloadBody]
    split
    · exact Or.inl ⟨_, rfl⟩
    · exact Or.inl ⟨_, rfl⟩
    · simp only [commitDownload]
      split
      · rename_i hsv
        exact Or.inr (Or.inr (Or.inl ⟨_, _, _, hsv, rfl⟩))
      · rename_i hsv
        exact Or.inr (Or.inr (Or.inr (Or.inr ⟨trivial, _, _, _, _, _, hsv, rfl⟩)))
  | some ef =>
    simp only [download_file, hfind, downloadBody]
    split
    · exact Or.inr (Or.inl ⟨ef, rfl, Or.inl rfl⟩)
    · split
      · exact Or.inl ⟨_, rfl⟩
      · exact Or.inl ⟨_, rfl⟩
      · split
        · exact Or.inr (Or.inl ⟨ef, rfl, Or.inr rfl⟩)
        · simp only [commitDownload]
          split
          · rename_i hsv
            exact Or.inr (Or.inr (Or.inl ⟨_, _, _, hsv, rfl⟩))
          · rename_i hsv
            split
            · exact Or.inr (Or.inr (Or.inr (Or.inl
                ⟨ef, _, _, _, _, _, _, rfl, hsv, Or.inr rfl, rfl⟩)))
            · exact Or.inr (Or.inr (Or.inr (Or.inl
                ⟨ef, _, _, _, "", _, _, rfl, hsv, Or.inl rfl, rfl⟩)))

/-! ### Key-count lemmas for the uniqueness invariant -/

theorem replaceFirst_length (p : ScrapedFile → Bool) (r : ScrapedFile) (l : List ScrapedFile) :
    (replaceFirst p r l).length = l.length := by
  induction l with
  | nil => rfl
  | cons x xs ih =>
    rw [replaceFirst]
    split
    · simp
    · simp [ih]

theorem keyPred_iff (inst url : String) (r : ScrapedFile) :
    keyPred inst url r = true ↔ r.institution = inst ∧ r.original_url = url := by
  simp [keyPred]

theorem countKey_cons (r : ScrapedFile) (l : List ScrapedFile) (i u : String) :
    countKey (r :: l) i u = (if keyPred i u r = true then 1 else 0) + countKey l i u := by
  rw [countKey, List.filter_cons]
  split
  · simp [countKey, Nat.add_comm]
  · simp [countKey]

theorem countKey_append_one (l : List ScrapedFile) (r : ScrapedFile) (i u : String) :
    countKey (l ++ [r]) i u = countKey l i u + (if keyPred i u r = true then 1 else 0) := by
  rw [countKey, List.filter_append, List.length_append, countKey]
  congr 1
  rw [List.filter_cons]
  split
  · simp
  · simp

theorem countKey_replaceFirst (i0 u0 : String) (new : ScrapedFile) (l : List ScrapedFile)
    (hnew : keyPred i0 u0 new = true) :
    ∀ i u, countKey (replaceFirst (keyPred i0 u0) new l) i u = countKey l i u := by
  induction l with
  | nil => intro i u; rfl
  | cons x xs ih =>
    intro i u
    rw [replaceFirst]
    by_cases hx : keyPred i0 u0 x = true
    · rw [if_pos hx, countKey_cons, countKey_cons]
      have hcongr : keyPred i u new = keyPred i u x := by
        rw [keyPred_iff] at hnew hx
        simp [keyPred, hnew.1, hnew.2, hx.1, hx.2]
      rw [hcongr]
    · rw [if_neg hx, countKey_cons, countKey_cons, ih]

theorem findRecord_none_countKey (db : List ScrapedFile) (inst url : String)
    (h : findRecord db inst url = none) : countKey db inst url = 0 := by
  rw [findRecord, List.find?_eq_none] at h
  rw [countKey, List.length_eq_zero, List.filter_eq_nil]
  exact h

theorem findRecord_some_key (db : List ScrapedFile) (inst url : String) (ef : ScrapedFile)
    (h : findRecord db inst url = some ef) : keyPred inst url ef = true :=
  List.find?_some h

/-- One `download_file` call preserves the uniqueness invariant. -/
theorem download_file_UniqueDB (env : DLEnv) (st : ScraperState) (url fname : String)
    (ow : Bool) (hu : UniqueDB st.db) :
    UniqueDB (download_file env st url fname ow).state.db := by
  rcases download_file_outcomes env st url fname ow with
    ⟨e, heq⟩ | ⟨ef, hfind, heq | heq⟩ | ⟨sp, c, e, hsv, heq⟩ |
    ⟨ef, sp, c, fp, hv, ts, db2, hfind, hsv, hdb | hdb, heq⟩ |
    ⟨hfind, sp, c, fp, hv, ts, hsv, heq⟩
  · rw [heq]; exact hu
  · rw [heq]; exact hu
  · rw [heq]; exact hu
  · rw [heq]; exact hu
  · rw [heq]
    intro i u
    show countKey db2 i u ≤ 1
    rw [hdb]
    exact hu i u
  · rw [heq]
    intro i u
    show countKey db2 i u ≤ 1
    rw [hdb]
    have hefkey := findRecord_some_key _ _ _ _ hfind
    have hnewkey : keyPred st.institution url
        { ef with file_path := fp, file_size := ts, mime_type := get_mime_type fname,
                  hash_value := hv, last_updated := env.now } = true := by
      rw [keyPred_iff] at hefkey ⊢
      exact hefkey
    rw [countKey_replaceFirst _ _ _ _ hnewkey]
    exact hu i u
  · rw [heq]
    intro i u
    show countKey (st.db ++ [_]) i u ≤ 1
    rw [countKey_append_one]
    by_cases hkey : st.institution = i ∧ url = u
    · obtain ⟨h1, h2⟩ := hkey
      subst h1
      subst h2
      rw [findRecord_none_countKey _ _ _ hfind]
      simp [keyPred]
    · have : ¬ (keyPred i u { institution := st.institution, original_url := url,
                              file_path := fp, file_name := fname, file_size := ts,
                              mime_type := get_mime_type fname, hash_value := hv,
                              date_created := env.now, last_updated := env.now } = true) := by
        rw [keyPred_iff]
        simpa using hkey
      rw [if_neg this]
      have := hu i u
      omega

/-- Claim C1: across any sequence of `download_file` commits at most one
`ScrapedFile` row exists per `(institution, original_url)` pair; when a
row for the pair exists, a commit updates it in place (same row count,
all other keys untouched) and never inserts a second row, and when none
exists, a successful call inserts exactly one new row. -/
theorem C1_unique_record_per_pair (st0 : ScraperState) (hu : UniqueDB st0.db) :
    (∀ calls, UniqueDB (runDownloads calls st0).db) ∧
    (∀ env url fname ow,
      (∀ i u, ¬ (i = st0.institution ∧ u = url) →
        countKey (download_file env st0 url fname ow).state.db i u = countKey st0.db i u) ∧
      ((∃ ef, findRecord st0.db st0.institution url = some ef) →
        (download_file env st0 url fname ow).state.db.length = st0.db.length) ∧
      (findRecord st0.db st0.institution url = none →
        ((download_file env st0 url fname ow).ret = none →
          (download_file env st0 url fname ow).state.db = st0.db) ∧
        ((download_file env st0 url fname ow).ret ≠ none →
          countKey (download_file env st0 url fname ow).state.db st0.institution url = 1 ∧
          (download_file env st0 url fname ow).state.db.length = st0.db.length + 1))) := by
  constructor
  · have hseq : ∀ calls st, UniqueDB st.db → UniqueDB (runDownloads calls st).db := by
      intro calls
      induction calls with
      | nil => intro st h; exact h
      | cons c cs ih =>
        intro st h
        rw [runDownloads]
        exact ih _ (download_file_UniqueDB _ _ _ _ _ h)
    exact fun calls => hseq calls st0 hu
  · intro env url fname ow
    rcases download_file_outcomes env st0 url fname ow with
      ⟨e, heq⟩ | ⟨ef, hfind, heq | heq⟩ | ⟨sp, c, e, hsv, heq⟩ |
      ⟨ef, sp, c, fp, hv, ts, db2, hfind, hsv, hdb, heq⟩ |
      ⟨hfind, sp, c, fp, hv, ts, hsv, heq⟩
    · refine ⟨fun i u _ => by rw [heq]; rfl, fun _ => by rw [heq]; rfl, fun _ => ⟨fun _ => by rw [heq]; rfl, fun hne => ?_⟩⟩
      rw [heq] at hne
      simp at hne
    · refine ⟨fun i u _ => by rw [heq], fun _ => by rw [heq], fun hnone => ?_⟩
      rw [hnone] at hfind
      cases hfind
    · refine ⟨fun i u _ => by rw [heq], fun _ => by rw [heq], fun hnone => ?_⟩
      rw [hnone] at hfind
      cases hfind
    · refine ⟨fun i u _ => by rw [heq]; rfl, fun _ => by rw [heq]; rfl, fun _ => ⟨fun _ => by rw [heq]; rfl, fun hne => ?_⟩⟩
      rw [heq] at hne
      simp at hne
    · have hefkey := findRecord_some_key _ _ _ _ hfind
      have hnewkey : keyPred st0.institution url
          { ef with file_path := fp, file_size := ts, mime_type := get_mime_type fname,
                    hash_value := hv, last_updated := env.now } = true := by
        rw [keyPred_iff] at hefkey ⊢
        exact hefkey
      refine ⟨?_, ?_, ?_⟩
      · intro i u _
        rw [heq]
        show countKey db2 i u = countKey st0.db i u
        rcases hdb with hdb | hdb
        · rw [hdb]
        · rw [hdb, countKey_replaceFirst _ _ _ _ hnewkey]
      · intro _
        rw [heq]
        show db2.length = st0.db.length
        rcases hdb with hdb | hdb
        · rw [hdb]
        · rw [hdb, replaceFirst_length]
      · intro hnone
        rw [hnone] at hfind
        cases hfind
    · refine ⟨?_, ?_, fun _ => ⟨fun hne => ?_, fun _ => ?_⟩⟩
      · intro i u hiu
        rw [heq]
        show countKey (st0.db ++ [_]) i u = countKey st0.db i u
        rw [countKey_append_one]
        have : ¬ (keyPred i u { institution := st0.institution, original_url := url,
                                file_path := fp, file_name := fname, file_size := ts,
                                mime_type := get_mime_type fname, hash_value := hv,
                                date_created := env.now, last_updated := env.now } = true) := by
          rw [keyPred_iff]
          intro hcontra
          exact hiu ⟨hcontra.1.symm, hcontra.2.symm⟩
        rw [if_neg this]
        omega
      · intro hsome
        obtain ⟨ef, hef⟩ := hsome
        rw [hef] at hfind
        cases hfind
      · rw [heq] at hne
        simp at hne
      · rw [heq]
        constructor
        · show countKey (st0.db ++ [_]) st0.institution url = 1
          rw [countKey_append_one, findRecord_none_countKey _ _ _ hfind]
          simp [keyPred]
        · simp

theorem C1_unique_record_per_pair_witness :
    UniqueDB (initState "NSI" "/s" 0 []).db ∧
    UniqueDB (runDownloads
      [(⟨none, fun _ => .resp 200 [[1, 2]] "", fun _ _ => .ok "/s/NSI/a.pdf", 3⟩,
        "http://x/a.pdf", "a.pdf", false),
       (⟨none, fun _ => .resp 200 [[1, 2, 3]] "", fun _ _ => .ok "/s/NSI/a.pdf", 4⟩,
        "http://x/a.pdf", "a.pdf", false)]
      (initState "NSI" "/s" 0 [])).db := by
  have h0 : UniqueDB (initState "NSI" "/s" 0 []).db := by
    intro i u
    simp [initState, countKey]
  exact ⟨h0, (C1_unique_record_per_pair (initState "NSI" "/s" 0 []) h0).1 _⟩

/-- Claim C5: a failing storage byte write prevents any `ScrapedFile`
row from being created or updated for that call — the record commit code
runs only after `storage.save` has returned. -/
theorem C5_no_record_on_storage_failure (env : DLEnv) (st : ScraperState) (url fname : String)
    (ow : Bool) (hsave : ∀ p b, ∃ e, env.storageSave p b = Except.error e) :
    (download_file env st url fname ow).state.db = st.db := by
  rcases download_file_outcomes env st url fname ow with
    ⟨e, heq⟩ | ⟨ef, hfind, heq | heq⟩ | ⟨sp, c, e, hsv, heq⟩ |
    ⟨ef, sp, c, fp, hv, ts, db2, hfind, hsv, hdb, heq⟩ |
    ⟨hfind, sp, c, fp, hv, ts, hsv, heq⟩
  · rw [heq]
    rfl
  · rw [heq]
  · rw [heq]
  · rw [heq]
    rfl
  · obtain ⟨e, he⟩ := hsave sp c
    rw [he] at hsv
    cases hsv
  · obtain ⟨e, he⟩ := hsave sp c
    rw [he] at hsv
    cases hsv

theorem C5_no_record_on_storage_failure_witness :
    (∀ p b, ∃ e,
      (⟨none, fun _ => AttemptResult.resp 200 [[7]] "", fun _ _ => Except.error "disk full",
        5⟩ : DLEnv).storageSave p b = Except.error e) ∧
    (download_file
      ⟨none, fun _ => AttemptResult.resp 200 [[7]] "", fun _ _ => Except.error "disk full", 5⟩
      (initState "NSI" "/s" 0 []) "http://x/b.csv" "b.csv" false).state.db =
      (initState "NSI" "/s" 0 []).db :=
  ⟨fun p b => ⟨"disk full", rfl⟩,
   C5_no_record_on_storage_failure _ _ _ _ _ (fun p b => ⟨"disk full", rfl⟩)⟩

/-- Claim C7: a terminally failing `download_file` call is isolated to
its URL: exactly one `{url, error, time}` entry is appended to
`stats["errors"]`, `files_failed` rises by one, `files_scraped` and
`total_size` are untouched, no `ScrapedFile` row is created or updated,
and the call returns `None` instead of raising. -/
theorem C7_per_url_failure_isolation (env : DLEnv) (st : ScraperState) (url fname : String)
    (ow : Bool) (hfail : (download_file env st url fname ow).ret = none) :
    ∃ e,
      (download_file env st url fname ow).state.stats.errors =
        st.stats.errors ++ [⟨url, e, env.now⟩] ∧
      (download_file env st url fname ow).state.stats.files_failed =
        st.stats.files_failed + 1 ∧
      (download_file env st url fname ow).state.stats.files_scraped =
        st.stats.files_scraped ∧
      (download_file env st url fname ow).state.stats.total_size = st.stats.total_size ∧
      (download_file env st url fname ow).state.db = st.db := by
  rcases download_file_outcomes env st url fname ow with
    ⟨e, heq⟩ | ⟨ef, hfind, heq | heq⟩ | ⟨sp, c, e, hsv, heq⟩ |
    ⟨ef, sp, c, fp, hv, ts, db2, hfind, hsv, hdb, heq⟩ |
    ⟨hfind, sp, c, fp, hv, ts, hsv, heq⟩
  · exact ⟨e, by rw [heq]; rfl, by rw [heq]; rfl, by rw [heq]; rfl, by rw [heq]; rfl,
      by rw [heq]; rfl⟩
  · rw [heq] at hfail; cases hfail
  · rw [heq] at hfail; cases hfail
  · exact ⟨e, by rw [heq]; rfl, by rw [heq]; rfl, by rw [heq]; rfl, by rw [heq]; rfl,
      by rw [heq]; rfl⟩
  · rw [heq] at hfail; cases hfail
  · rw [heq] at hfail; cases hfail

theorem C7_per_url_failure_isolation_witness :
    ((download_file ⟨none, fun _ => AttemptResult.netErr "timeout", fun _ _ => Except.ok "/p", 9⟩
        (initState "NSI" "/s" 0 []) "http://x/c.xls" "c.xls" false).ret = none) ∧
    ∃ e,
      (download_file ⟨none, fun _ => AttemptResult.netErr "timeout", fun _ _ => Except.ok "/p", 9⟩
        (initState "NSI" "/s" 0 []) "http://x/c.xls" "c.xls" false).state.stats.errors =
        (initState "NSI" "/s" 0 []).stats.errors ++ [⟨"http://x/c.xls", e, 9⟩] ∧
      (download_file ⟨none, fun _ => AttemptResult.netErr "timeout", fun _ _ => Except.ok "/p", 9⟩
        (initState "NSI" "/s" 0 []) "http://x/c.xls" "c.xls" false).state.stats.files_failed =
        (initState "NSI" "/s" 0 []).stats.files_failed + 1 ∧
      (download_file ⟨none, fun _ => AttemptResult.netErr "timeout", fun _ _ => Except.ok "/p", 9⟩
        (initState "NSI" "/s" 0 []) "http://x/c.xls" "c.xls" false).state.stats.files_scraped =
        (initState "NSI" "/s" 0 []).stats.files_scraped ∧
      (download_file ⟨none, fun _ => AttemptResult.netErr "timeout", fun _ _ => Except.ok "/p", 9⟩
        (initState "NSI" "/s" 0 []) "http://x/c.xls" "c.xls" false).state.stats.total_size =
        (initState "NSI" "/s" 0 []).stats.total_size ∧
      (download_file ⟨none, fun _ => AttemptResult.netErr "timeout", fun _ _ => Except.ok "/p", 9⟩
        (initState "NSI" "/s" 0 []) "http://x/c.xls" "c.xls" false).state.db =
        (initState "NSI" "/s" 0 []).db :=
  ⟨rfl,
   C7_per_url_failure_isolation _ _ _ _ _ rfl⟩

/-! ### Change-detector claims -/

/-- Claim C3: with an existing record, `overwrite=False`, and a HEAD
probe returning an ETag equal to the stored digest, no body download is
performed, the stored path is returned, and neither stats counters nor
any record field change. -/
theorem C3_etag_skip (env : DLEnv) (st : ScraperState) (url fname : String)
    (ef : ScrapedFile) (etag : String)
    (hfind : findRecord st.db st.institution url = some ef)
    (hhead : env.headResult = some (some etag))
    (hne : etag ≠ "") (hmatch : etag = ef.hash_value) :
    download_file env st url fname false = ⟨some ef.file_path, st, false, none⟩ := by
  subst hmatch
  simp only [download_file, hfind]
  rw [if_pos (by simp [etagMatches, hhead, hne])]

def efC3 : ScrapedFile :=
  { institution := "NSI", original_url := "http://x/a.pdf", file_path := "/s/NSI/a.pdf",
    file_name := "a.pdf", file_size := 5, mime_type := "application/pdf",
    hash_value := "deadbeef", date_created := 0, last_updated := 0 }

theorem C3_etag_skip_witness :
    (findRecord (initState "NSI" "/s" 0 [efC3]).db
        (initState "NSI" "/s" 0 [efC3]).institution "http://x/a.pdf" = some efC3 ∧
      ("deadbeef" : String) ≠ "") ∧
    download_file ⟨some (some "deadbeef"), fun _ => .netErr "x", fun _ _ => .ok "/p", 7⟩
        (initState "NSI" "/s" 0 [efC3]) "http://x/a.pdf" "a.pdf" false =
      ⟨some efC3.file_path, initState "NSI" "/s" 0 [efC3], false, none⟩ :=
  ⟨⟨rfl, by decide⟩,
   C3_etag_skip _ _ _ _ efC3 "deadbeef" rfl rfl (by decide) rfl⟩

/-- Claim C4: with an existing record, `overwrite=False`, and a failed
or mismatching HEAD probe, exactly one full body download is performed
(`bodyFetched = true`), and when the freshly computed digest equals the
stored digest the fetched bytes are discarded without a storage write
(`savedBytes = none`), no record or stats field changes (state is
returned unchanged), and the stored path is returned. -/
theorem C4_content_digest_skip (env : DLEnv) (st : ScraperState) (url fname : String)
    (ef : ScrapedFile) (resp : Response)
    (hfind : findRecord st.db st.institution url = some ef)
    (hetag : etagMatches env.headResult ef = false)
    (hmr : (makeRequest env.fetch st.max_retries st.request_delay).result =
      some (Except.ok resp))
    (hhash : (processChunks resp.chunks ([], Sha256Ctx.init, 0)).2.1.hexdigest =
      ef.hash_value) :
    download_file env st url fname false = ⟨some ef.file_path, st, true, none⟩ := by
  simp only [download_file, hfind]
  rw [if_neg (by simp [hetag])]
  simp only [downloadBody, hmr]
  rw [hhash]
  rw [if_pos (by simp)]

def efC4 : ScrapedFile :=
  { institution := "NSI", original_url := "http://x/d.pdf", file_path := "/s/NSI/d.pdf",
    file_name := "d.pdf", file_size := 2, mime_type := "application/pdf",
    hash_value := (processChunks [[1, 2]] ([], Sha256Ctx.init, 0)).2.1.hexdigest,
    date_created := 0, last_updated := 0 }

theorem C4_content_digest_skip_witness :
    (findRecord (initState "NSI" "/s" 0 [efC4]).db
        (initState "NSI" "/s" 0 [efC4]).institution "http://x/d.pdf" = some efC4 ∧
      etagMatches (some none) efC4 = false) ∧
    download_file ⟨some none, fun _ => .resp 200 [[1, 2]] "", fun _ _ => .ok "/s/NSI/d.pdf", 7⟩
        (initState "NSI" "/s" 0 [efC4]) "http://x/d.pdf" "d.pdf" false =
      ⟨some efC4.file_path, initState "NSI" "/s" 0 [efC4], true, none⟩ :=
  ⟨⟨rfl, rfl⟩,
   C4_content_digest_skip _ _ _ _ efC4 ⟨200, [[1, 2]], ""⟩ rfl rfl rfl rfl⟩

/-! ### Finalize claims -/

/-- Claim C9 counterexample: calling `finalize` a second time changes
the finalized `end_time` (and `duration`): the second call overwrites
`end_time` with the later clock reading instead of rejecting or
resolving to the first result. -/
theorem C9_counterexample :
    ¬ ((finalize 20 (finalize 10 (initState "NSI" "/s" 0 [])).1).2.end_time =
         (finalize 10 (initState "NSI" "/s" 0 [])).2.end_time ∧
       (finalize 20 (finalize 10 (initState "NSI" "/s" 0 [])).1).2.duration =
         (finalize 10 (initState "NSI" "/s" 0 [])).2.duration) := by
  decide

/-- Claim C9 (amended): `finalize` is last-write-wins, not idempotent:
every call — including a repeated one — sets `end_time` to the current
clock reading and recomputes `duration` from it, overwriting whatever a
previous `finalize` stored, and returns the updated stats. -/
theorem C9_finalize_last_write_wins (t : Int) (st : ScraperState) :
    (finalize t st).2.end_time = some t ∧
    (finalize t st).2.duration = some (t - st.stats.start_time) ∧
    (finalize t st).1.stats = (finalize t st).2 :=
  ⟨rfl, rfl, rfl⟩

/-! ### Errors vs failures bookkeeping (C10) -/

theorem fetch_page_cases (env : PageEnv) (st : ScraperState) (url : String) :
    (∃ t, fetch_page env st url = ⟨some t, st, false⟩) ∨
    (∃ e, fetch_page env st url =
      ⟨none,
       { st with stats := { st.stats with errors := st.stats.errors ++ [⟨url, e, env.now⟩] } },
       false⟩) ∨
    fetch_page env st url = ⟨none, st, true⟩ := by
  simp only [fetch_page]
  split
  · exact Or.inl ⟨_, rfl⟩
  · exact Or.inr (Or.inl ⟨_, rfl⟩)
  · exact Or.inr (Or.inr rfl)

theorem stepOp_counts (st : ScraperState) (op : Op) :
    (stepOp st op).1.stats.files_failed = st.stats.files_failed + (stepOp st op).2.1 ∧
    (stepOp st op).1.stats.errors.length =
      st.stats.errors.length + (stepOp st op).2.1 + (stepOp st op).2.2 := by
  cases op with
  | page env url =>
    rcases fetch_page_cases env st url with ⟨t, heq⟩ | ⟨e, heq⟩ | heq
    · simp [stepOp, heq]
    · simp [stepOp, heq]
    · simp [stepOp, heq]
  | dl env url fname ow =>
    rcases download_file_outcomes env st url fname ow with
      ⟨e, heq⟩ | ⟨ef, hfind, heq | heq⟩ | ⟨sp, c, e, hsv, heq⟩ |
      ⟨ef, sp, c, fp, hv, ts, db2, hfind, hsv, hdb, heq⟩ |
      ⟨hfind, sp, c, fp, hv, ts, hsv, heq⟩
    · simp [stepOp, heq, recordFailure]
    · simp [stepOp, heq]
    · simp [stepOp, heq]
    · simp [stepOp, heq, recordFailure]
    · simp [stepOp, heq]
    · simp [stepOp, heq]

/-- Claim C10: a failed page fetch appends one entry to
`stats["errors"]` without touching `files_failed`; across any operation
sequence `files_failed` counts exactly the terminal download failures
while `errors` additionally records the failed page fetches, so
`len(errors)` can strictly exceed `files_failed`. -/
theorem C10_errors_superset_of_failures (ops : List Op) (st0 : ScraperState) :
    (runOps ops st0).1.stats.files_failed = st0.stats.files_failed + (runOps ops st0).2.1 ∧
    (runOps ops st0).1.stats.errors.length =
      st0.stats.errors.length + (runOps ops st0).2.1 + (runOps ops st0).2.2 ∧
    (0 < (runOps ops st0).2.2 → st0.stats.files_failed ≤ st0.stats.errors.length →
      (runOps ops st0).1.stats.files_failed < (runOps ops st0).1.stats.errors.length) := by
  induction ops generalizing st0 with
  | nil => simp [runOps]
  | cons op ops ih =>
    obtain ⟨h1, h2⟩ := stepOp_counts st0 op
    obtain ⟨g1, g2, g3⟩ := ih (stepOp st0 op).1
    simp only [runOps]
    exact ⟨by omega, by omega, fun hp hb => by omega⟩

theorem C10_errors_superset_of_failures_witness :
    (0 < (runOps [Op.page ⟨fun _ => .netErr "refused", 5⟩ "http://x/page"]
        (initState "NSI" "/s" 0 [])).2.2 ∧
      (initState "NSI" "/s" 0 []).stats.files_failed ≤
        (initState "NSI" "/s" 0 []).stats.errors.length) ∧
    (runOps [Op.page ⟨fun _ => .netErr "refused", 5⟩ "http://x/page"]
        (initState "NSI" "/s" 0 [])).1.stats.files_failed <
      (runOps [Op.page ⟨fun _ => .netErr "refused", 5⟩ "http://x/page"]
        (initState "NSI" "/s" 0 [])).1.stats.errors.length :=
  ⟨⟨by decide, by decide⟩,
   (C10_errors_superset_of_failures
      [Op.page ⟨fun _ => .netErr "refused", 5⟩ "http://x/page"]
      (initState "NSI" "/s" 0 [])).2.2 (by decide) (by decide)⟩

end BgScrapers
